import Mathlib

/-!
# Verification of the npm-info caching proxy (`src/api/package.py`)

Shallow embedding of the caching and aggregation layer of the FastAPI
service: the in-memory TTL cache (`get_from_cache` / `set_cache`), the
cache-key construction from the three route handlers, the upstream fetch
wrappers (`fetch_registry`, `fetch_downloads`), and the three aggregation
handlers (`get_package`, `get_user_packages`, `package_downloads_chart`).

Modelling conventions:
* Time is a natural number of seconds (`time.time()`); Python's real-valued
  `now - ts > TTL` comparison agrees with truncated `Nat` subtraction for
  every `now`, `ts` because the TTL is non-negative.
* Python dicts that the code reads with `.get` are modelled as association
  lists over `String` keys preserving insertion order (Python dicts preserve
  insertion order), with `dictGet` as first-match lookup.
* An upstream HTTP call is an oracle value `FetchOutcome`: either a
  completed response with a status code and a parsed JSON body, or `exn`
  (connection error / timeout, which in Python raises out of `httpx`).
  `httpx.Response.raise_for_status` raises for every non-2xx status.
* A raised `HTTPException(status, detail)` is `ApiError.httpError`;
  any other uncaught exception surfaces as a 500 — modelled as
  `ApiError.upstreamError` for network/status errors and
  `ApiError.keyError` for the `KeyError` that `d["day"]` / `d["downloads"]`
  can raise in the chart handler.
* The module-level mutable `_cache` dict is passed explicitly: each handler
  takes the cache before the request and returns the cache after it,
  together with the number of upstream HTTP requests it issued (used to
  state the no-new-upstream-fetch properties).
* `JSONResponse(content=x)` is modelled as returning `x` itself; a handler
  result is `Except ApiError CacheVal`.
-/

/-- First-match lookup in an insertion-ordered association list: Python's
`dict.get(k)` (Python dict keys are unique, so first match is the match). -/
def dictGet {α : Type} : List (String × α) → String → Option α
  | [], _ => none
  | (k, v) :: rest, key => if k = key then some v else dictGet rest key

/-- The fields of one entry of the registry metadata's `versions` mapping
that `get_package` reads (`version`, `license`, `dependencies`, `dist`).
The `dependencies` and `dist` sub-dicts are passed through verbatim, so
their values are opaque strings here. -/
structure VersionMeta where
  version : Option String
  license : Option String
  dependencies : Option (List (String × String))
  dist : Option (List (String × String))
deriving DecidableEq

/-- Python's `{}` default used for a missing version manifest. -/
def VersionMeta.empty : VersionMeta := ⟨none, none, none, none⟩

/-- The fields of the registry's per-package metadata JSON that
`get_package` reads. `repository` is returned verbatim (opaque). -/
structure RegistryMeta where
  name : Option String
  description : Option String
  homepage : Option String
  repository : Option String
  distTags : Option (List (String × String))
  versions : Option (List (String × VersionMeta))
  readme : Option String
deriving DecidableEq

/-- The shaped `latest_meta` sub-object of the package-info response. -/
structure LatestMeta where
  version : Option String
  license : Option String
  dependencies : List (String × String)
  dist : List (String × String)
deriving DecidableEq

/-- The shaped package-info response (`result` dict in `get_package`).
`versions` is present iff `include_versions`, `readme` iff
`include_readme`; absence of the key is `none`. -/
structure PackageSummary where
  name : Option String
  description : Option String
  homepage : Option String
  repository : Option String
  latest : Option String
  latest_meta : LatestMeta
  downloads_last_week : Option Int
  versions : Option (List String)
  readme : Option String
deriving DecidableEq

/-- The fields of a search hit's `package` sub-object that
`get_user_packages` reads; `links` is passed through verbatim (opaque). -/
structure SearchPkgInfo where
  name : Option String
  version : Option String
  description : Option String
  date : Option String
  links : Option String
deriving DecidableEq

/-- Python's `{}` default used for a missing `package` sub-object. -/
def SearchPkgInfo.empty : SearchPkgInfo := ⟨none, none, none, none, none⟩

/-- One element of the search response's `objects` array. -/
structure SearchObj where
  package : Option SearchPkgInfo
deriving DecidableEq

/-- The fields of the maintainer-search response that the code reads. -/
structure SearchResp where
  objects : Option (List SearchObj)
  total : Option Int
deriving DecidableEq

/-- One shaped entry of the user-packages response. -/
structure UserPackageEntry where
  name : Option String
  version : Option String
  description : Option String
  date : Option String
  links : Option String
deriving DecidableEq

/-- The shaped user-packages response (`output` dict). -/
structure UserOutput where
  username : String
  count : Int
  packages : List UserPackageEntry
deriving DecidableEq

/-- One record of the ranged-downloads response's `downloads` array.
Both fields are optional in the upstream JSON; the handler indexes them
directly (`d["day"]`, `d["downloads"]`), which raises when absent. -/
structure DayRecord where
  day : Option String
  downloads : Option Int
deriving DecidableEq

/-- The fields of the ranged-downloads response that the code reads. -/
structure RangeResp where
  downloads : Option (List DayRecord)
deriving DecidableEq

/-- One shaped chart point `{date, downloads}`. -/
structure DownloadPoint where
  date : String
  downloads : Int
deriving DecidableEq

/-- Outcome of one outbound HTTP GET: a completed response (status code and
parsed JSON body) or a raised transport exception (timeout, connection
error). -/
inductive FetchOutcome (α : Type) where
  | success (code : Nat) (body : α)
  | exn
deriving DecidableEq

/-- How a request terminates abnormally: a raised
`HTTPException(status, detail)`, an uncaught httpx transport/status error
(500 to the client), or an uncaught `KeyError` (500 to the client). -/
inductive ApiError where
  | httpError (status : Nat) (detail : String)
  | upstreamError
  | keyError
deriving DecidableEq

/-- A value stored in the shared `_cache`: the three handlers store their
respective shaped responses (the chart handler stores the bare list, not a
wrapping object). -/
inductive CacheVal where
  | pkg (v : PackageSummary)
  | user (v : UserOutput)
  | chart (v : List DownloadPoint)
deriving DecidableEq

/-- One `_cache` entry: `{"ts": time.time(), "value": val}`. -/
structure CacheEntry where
  ts : Nat
  value : CacheVal
deriving DecidableEq

/-- The module-level `_cache` dict, as a map from key to entry. -/
abbrev Cache := String → Option CacheEntry

/-- The empty cache (fresh process). -/
def emptyCache : Cache := fun _ => none

/-- `get_from_cache`: return the stored value if the entry exists and is at
most `ttl` old; an over-age entry is popped. Returns the (possibly popped)
cache alongside the result. -/
def get_from_cache (ttl now : Nat) (c : Cache) (key : String) :
    Option CacheVal × Cache :=
  match c key with
  | none => (none, c)
  | some ent =>
    if now - ent.ts > ttl then (none, fun k => if k = key then none else c k)
    else (some ent.value, c)

/-- `set_cache`: unconditionally overwrite `key` with a fresh timestamp. -/
def set_cache (now : Nat) (c : Cache) (key : String) (val : CacheVal) : Cache :=
  fun k => if k = key then some ⟨now, val⟩ else c k

/-- Python truthiness of a cached response, as tested by `if cached:` in
each handler. The package-info and user-packages responses are dicts with a
fixed non-empty key set, hence always truthy; the chart response is a list,
falsy exactly when empty. -/
def truthy : CacheVal → Bool
  | .pkg _ => true
  | .user _ => true
  | .chart l => !l.isEmpty

/-- `int(b)` rendered into an f-string: `"1"` or `"0"`. -/
def boolStr (b : Bool) : String := if b then "1" else "0"

/-- Decimal digits of a natural number, most significant first
(the digits of Python's `str` on a non-negative int). -/
def natDigits (n : Nat) : List Char :=
  if h : n < 10 then [Char.ofNat (48 + n)]
  else natDigits (n / 10) ++ [Char.ofNat (48 + n % 10)]
decreasing_by exact Nat.div_lt_self (by omega) (by omega)

/-- Python's `str` on a non-negative int. -/
def natStr (n : Nat) : String := ⟨natDigits n⟩

/-- Python's `str` on an int (f-string interpolation of an `int`). -/
def intStr (i : Int) : String :=
  if i < 0 then "-" ++ natStr i.natAbs else natStr i.natAbs

/-- The package-info cache key `f"pkg:{package_name}:{int(include_versions)}:{int(include_readme)}"`. -/
def pkgKey (package_name : String) (include_versions include_readme : Bool) : String :=
  "pkg:" ++ package_name ++ ":" ++ boolStr include_versions ++ ":" ++ boolStr include_readme

/-- The user-packages cache key `f"user:{username}:{size}:{from_}"`. -/
def userKey (username : String) (size fromOff : Int) : String :=
  "user:" ++ username ++ ":" ++ intStr size ++ ":" ++ intStr fromOff

/-- The downloads-chart cache key `f"chart:{package}:{range_}"`. -/
def chartKey (package range_ : String) : String :=
  "chart:" ++ package ++ ":" ++ range_

/-- A request identity together with every response-affecting parameter,
across the three cached routes. -/
inductive Request where
  | pkg (name : String) (iv ir : Bool)
  | user (username : String) (size fromOff : Int)
  | chart (package range_ : String)
deriving DecidableEq

/-- The cache key each handler builds for the request. -/
def cacheKey : Request → String
  | .pkg n iv ir => pkgKey n iv ir
  | .user u s f => userKey u s f
  | .chart p r => chartKey p r

/-- `fetch_registry`: 404 raises `HTTPException(404, "Package not found")`;
any other non-2xx (or a transport error) raises; 2xx yields the body. -/
def fetch_registry (o : FetchOutcome RegistryMeta) : Except ApiError RegistryMeta :=
  match o with
  | .exn => .error .upstreamError
  | .success code body =>
    if code = 404 then .error (.httpError 404 "Package not found")
    else if 200 ≤ code ∧ code < 300 then .ok body else .error .upstreamError

/-- `fetch_downloads`: 404 yields the empty dict `{}` (treated as "no
data"); any other non-2xx (or a transport error) raises; 2xx yields the
body, an association list holding at most a `"downloads"` field. -/
def fetch_downloads (o : FetchOutcome (List (String × Int))) :
    Except ApiError (List (String × Int)) :=
  match o with
  | .exn => .error .upstreamError
  | .success code body =>
    if code = 404 then .ok []
    else if 200 ≤ code ∧ code < 300 then .ok body else .error .upstreamError

/-- The response-shaping block of `get_package`, given the registry body
and the (possibly empty) downloads dict. Follows the source line by line:
`latest` from `dist-tags`, `latest_meta` looked up only when `latest` is
truthy (a present but empty string is falsy in Python), the downloads
field read with `.get` only when the dict is truthy, `versions[-20:]` when
requested, `readme` defaulted to `""` when requested. -/
def shapeSummary (reg : RegistryMeta) (downloads : List (String × Int))
    (include_versions include_readme : Bool) : PackageSummary :=
  let latest := dictGet (reg.distTags.getD []) "latest"
  let latest_meta :=
    match latest with
    | some l =>
      if l = "" then VersionMeta.empty
      else (dictGet (reg.versions.getD []) l).getD VersionMeta.empty
    | none => VersionMeta.empty
  let versionKeys := (reg.versions.getD []).map Prod.fst
  { name := reg.name
    description := reg.description
    homepage := reg.homepage
    repository := reg.repository
    latest := latest
    latest_meta :=
      { version := latest_meta.version
        license := latest_meta.license
        dependencies := latest_meta.dependencies.getD []
        dist := latest_meta.dist.getD [] }
    downloads_last_week :=
      if downloads.isEmpty then none else dictGet downloads "downloads"
    versions :=
      if include_versions then some (versionKeys.drop (versionKeys.length - 20))
      else none
    readme := if include_readme then some (reg.readme.getD "") else none }

/-- What each request's upstream world looks like for `get_package`: the
outcome of the registry metadata call and of the weekly-downloads call. -/
structure PkgWorld where
  registry : FetchOutcome RegistryMeta
  downloads : FetchOutcome (List (String × Int))

/-- The cache-miss path of `get_package`: fetch registry metadata (one
upstream call), then weekly downloads (a second upstream call), shape,
store under `key`, return. Any raise leaves the cache untouched. -/
def get_package_miss (now : Nat) (w : PkgWorld) (c : Cache) (key : String)
    (include_versions include_readme : Bool) :
    Except ApiError CacheVal × Cache × Nat :=
  match fetch_registry w.registry with
  | .error e => (.error e, c, 1)
  | .ok reg =>
    match fetch_downloads w.downloads with
    | .error e => (.error e, c, 2)
    | .ok dbody =>
      let result := shapeSummary reg dbody include_versions include_readme
      (.ok (.pkg result), set_cache now c key (.pkg result), 2)

/-- The `GET /api/package/{package_name}` handler: cache lookup with
Python-truthiness on the hit, else the miss path. The third component is
the number of upstream HTTP requests issued. -/
def get_package (ttl now : Nat) (w : PkgWorld) (c : Cache)
    (package_name : String) (include_versions include_readme : Bool) :
    Except ApiError CacheVal × Cache × Nat :=
  let key := pkgKey package_name include_versions include_readme
  let res := get_from_cache ttl now c key
  match res.1 with
  | some v =>
    if truthy v then (.ok v, res.2, 0)
    else get_package_miss now w res.2 key include_versions include_readme
  | none => get_package_miss now w res.2 key include_versions include_readme

/-- The projection of one search hit into a `UserPackageEntry`. -/
def projectSearchHit (p : SearchPkgInfo) : UserPackageEntry :=
  ⟨p.name, p.version, p.description, p.date, p.links⟩

/-- The cache-miss path of `get_user_packages`: one search call; any status
other than exactly 200 raises `HTTPException(502, ...)`; a transport error
raises out; on 200 project the hits in order, build the output, store,
return. -/
def get_user_packages_miss (now : Nat) (w : FetchOutcome SearchResp)
    (c : Cache) (key username : String) :
    Except ApiError CacheVal × Cache × Nat :=
  match w with
  | .exn => (.error .upstreamError, c, 1)
  | .success code data =>
    if code = 200 then
      let results := (data.objects.getD []).map
        (fun o => projectSearchHit (o.package.getD SearchPkgInfo.empty))
      let output : UserOutput := ⟨username, data.total.getD 0, results⟩
      (.ok (.user output), set_cache now c key (.user output), 1)
    else (.error (.httpError 502 "Failed to fetch user packages"), c, 1)

/-- The `GET /api/user/{username}` handler. -/
def get_user_packages (ttl now : Nat) (w : FetchOutcome SearchResp)
    (c : Cache) (username : String) (size fromOff : Int) :
    Except ApiError CacheVal × Cache × Nat :=
  let key := userKey username size fromOff
  let res := get_from_cache ttl now c key
  match res.1 with
  | some v =>
    if truthy v then (.ok v, res.2, 0)
    else get_user_packages_miss now w res.2 key username
  | none => get_user_packages_miss now w res.2 key username

/-- The chart list comprehension
`[{"date": d["day"], "downloads": d["downloads"]} for d in downloads_data]`:
direct indexing, so a record lacking either field raises `KeyError`,
modelled as `none`. -/
def shapeChart : List DayRecord → Option (List DownloadPoint)
  | [] => some []
  | d :: rest =>
    match d.day, d.downloads, shapeChart rest with
    | some day, some dl, some tail => some (⟨day, dl⟩ :: tail)
    | _, _, _ => none

/-- The cache-miss path of `package_downloads_chart`: one ranged-downloads
call; 404 raises `HTTPException(404, ...)`; other non-2xx or transport
errors raise; on 2xx shape the `downloads` array (raising `KeyError` on a
malformed record), store the bare list, return it. -/
def package_downloads_chart_miss (now : Nat) (w : FetchOutcome RangeResp)
    (c : Cache) (key : String) :
    Except ApiError CacheVal × Cache × Nat :=
  match w with
  | .exn => (.error .upstreamError, c, 1)
  | .success code data =>
    if code = 404 then
      (.error (.httpError 404 "Package not found or no downloads"), c, 1)
    else if 200 ≤ code ∧ code < 300 then
      match shapeChart (data.downloads.getD []) with
      | none => (.error .keyError, c, 1)
      | some chart_data =>
        (.ok (.chart chart_data), set_cache now c key (.chart chart_data), 1)
    else (.error .upstreamError, c, 1)

/-- The `GET /api/user/package/downloads/chart` handler. -/
def package_downloads_chart (ttl now : Nat) (w : FetchOutcome RangeResp)
    (c : Cache) (package range_ : String) :
    Except ApiError CacheVal × Cache × Nat :=
  let key := chartKey package range_
  let res := get_from_cache ttl now c key
  match res.1 with
  | some v =>
    if truthy v then (.ok v, res.2, 0)
    else package_downloads_chart_miss now w res.2 key
  | none => package_downloads_chart_miss now w res.2 key

/-- Numeric value of a digit string, used as a left inverse of `natDigits`. -/
def digitsToNat (l : List Char) : Nat :=
  l.foldl (fun a c => a * 10 + (c.toNat - 48)) 0

/-!
## Helper lemmas: decimal rendering and colon-separated key parsing
-/

theorem digit_char_toNat : ∀ d : Nat, d < 10 → (Char.ofNat (48 + d)).toNat = 48 + d := by
  decide

theorem digitsToNat_natDigits (n : Nat) : digitsToNat (natDigits n) = n := by
  induction n using Nat.strong_induction_on with
  | _ n ih =>
    rw [natDigits]
    split
    · next h =>
      simp [digitsToNat, List.foldl, digit_char_toNat n h]
    · next h =>
      unfold digitsToNat
      rw [List.foldl_append]
      have hlt : n / 10 < n := Nat.div_lt_self (by omega) (by omega)
      have hih := ih (n / 10) hlt
      unfold digitsToNat at hih
      rw [hih]
      have hm := digit_char_toNat (n % 10) (Nat.mod_lt n (by omega))
      simp [List.foldl, hm]
      omega

theorem natDigits_mem (n : Nat) : ∀ c ∈ natDigits n, 48 ≤ c.toNat ∧ c.toNat ≤ 57 := by
  induction n using Nat.strong_induction_on with
  | _ n ih =>
    rw [natDigits]
    split
    · next h =>
      intro c hc
      simp at hc
      subst hc
      have := digit_char_toNat n h
      omega
    · next h =>
      intro c hc
      rw [List.mem_append] at hc
      rcases hc with hc | hc
      · exact ih (n / 10) (Nat.div_lt_self (by omega) (by omega)) c hc
      · simp at hc
        subst hc
        have := digit_char_toNat (n % 10) (Nat.mod_lt n (by omega))
        omega

theorem natDigits_ne_nil (n : Nat) : natDigits n ≠ [] := by
  rw [natDigits]
  split
  · simp
  · simp

theorem natStr_inj {m n : Nat} (h : natStr m = natStr n) : m = n := by
  have hd : natDigits m = natDigits n := congrArg String.data h
  have := congrArg digitsToNat hd
  simpa [digitsToNat_natDigits] using this

theorem intStr_data_neg {i : Int} (h : i < 0) :
    (intStr i).data = '-' :: natDigits i.natAbs := by
  simp [intStr, h, natStr, String.data_append]

theorem intStr_data_nonneg {i : Int} (h : ¬ i < 0) :
    (intStr i).data = natDigits i.natAbs := by
  simp [intStr, h, natStr]

theorem colon_notMem_intStr (i : Int) : ':' ∉ (intStr i).data := by
  by_cases h : i < 0
  · rw [intStr_data_neg h]
    intro hmem
    rcases List.mem_cons.mp hmem with h1 | h1
    · exact absurd h1 (by decide)
    · have := natDigits_mem i.natAbs ':' h1
      revert this
      decide
  · rw [intStr_data_nonneg h]
    intro hmem
    have := natDigits_mem i.natAbs ':' hmem
    revert this
    decide

theorem intStr_inj {i j : Int} (h : intStr i = intStr j) : i = j := by
  have hd := congrArg String.data h
  by_cases hi : i < 0 <;> by_cases hj : j < 0
  · rw [intStr_data_neg hi, intStr_data_neg hj] at hd
    have : (i.natAbs : Nat) = j.natAbs := by
      apply natStr_inj
      apply congrArg String.mk
      exact (List.cons.injEq _ _ _ _ ▸ hd).2
    omega
  · rw [intStr_data_neg hi, intStr_data_nonneg hj] at hd
    cases hND : natDigits j.natAbs with
    | nil => exact absurd hND (natDigits_ne_nil _)
    | cons cc t =>
      rw [hND] at hd
      have hc : '-' = cc := (List.cons.injEq _ _ _ _ ▸ hd).1
      have hb := natDigits_mem j.natAbs cc (hND ▸ List.mem_cons_self cc t)
      rw [← hc] at hb
      exact absurd hb (by decide)
  · rw [intStr_data_nonneg hi, intStr_data_neg hj] at hd
    cases hND : natDigits i.natAbs with
    | nil => exact absurd hND (natDigits_ne_nil _)
    | cons cc t =>
      rw [hND] at hd
      have hc : cc = '-' := (List.cons.injEq _ _ _ _ ▸ hd).1
      have hb := natDigits_mem i.natAbs cc (hND ▸ List.mem_cons_self cc t)
      rw [hc] at hb
      exact absurd hb (by decide)
  · rw [intStr_data_nonneg hi, intStr_data_nonneg hj] at hd
    have : (i.natAbs : Nat) = j.natAbs := by
      apply natStr_inj
      exact congrArg String.mk hd
    omega

theorem splitSep_left {α : Type} {c : α} :
    ∀ {a b f g : List α}, c ∉ a → c ∉ b → a ++ c :: f = b ++ c :: g →
      a = b ∧ f = g := by
  intro a
  induction a with
  | nil =>
    intro b f g ha hb h
    cases b with
    | nil =>
      simp at h
      exact ⟨rfl, h⟩
    | cons y ys =>
      simp at h
      exact absurd (h.1 ▸ List.mem_cons_self y ys) hb
  | cons x xs ih =>
    intro b f g ha hb h
    cases b with
    | nil =>
      simp at h
      exact absurd (h.1 ▸ List.mem_cons_self x xs) ha
    | cons y ys =>
      simp only [List.cons_append, List.cons.injEq] at h
      have ha2 : c ∉ xs := fun hm => ha (List.mem_cons_of_mem _ hm)
      have hb2 : c ∉ ys := fun hm => hb (List.mem_cons_of_mem _ hm)
      have hr := ih ha2 hb2 h.2
      exact ⟨by rw [h.1, hr.1], hr.2⟩

theorem splitSep_right {α : Type} {c : α} {a b f g : List α}
    (hf : c ∉ f) (hg : c ∉ g) (h : a ++ c :: f = b ++ c :: g) :
    a = b ∧ f = g := by
  have h2 : f.reverse ++ c :: a.reverse = g.reverse ++ c :: b.reverse := by
    have hrev := congrArg List.reverse h
    simpa [List.reverse_append] using hrev
  have hf2 : c ∉ f.reverse := by simpa using hf
  have hg2 : c ∉ g.reverse := by simpa using hg
  have hr := splitSep_left hf2 hg2 h2
  exact ⟨List.reverse_inj.mp hr.2, List.reverse_inj.mp hr.1⟩

theorem boolStr_colonFree : ∀ x : Bool, ':' ∉ (boolStr x).data := by decide

theorem pkg_prefix_data : "pkg:".data = ['p', 'k', 'g', ':'] := rfl

theorem user_prefix_data : "user:".data = ['u', 's', 'e', 'r', ':'] := rfl

theorem chart_prefix_data : "chart:".data = ['c', 'h', 'a', 'r', 't', ':'] := rfl

theorem colon_data : ":".data = [':'] := rfl

theorem boolStr_inj {x y : Bool} (h : (boolStr x).data = (boolStr y).data) :
    x = y := by
  cases x <;> cases y
  · rfl
  · exact absurd h (by decide)
  · exact absurd h (by decide)
  · rfl

/-- The `pkg` key scheme is injective in all three parameters: the two
trailing components are single colon-free digits, so the colon separators
parse unambiguously from the right. -/
theorem pkgKey_inj {n1 n2 : String} {a1 b1 a2 b2 : Bool}
    (h : pkgKey n1 a1 b1 = pkgKey n2 a2 b2) : n1 = n2 ∧ a1 = a2 ∧ b1 = b2 := by
  have hd : (('p' :: 'k' :: 'g' :: ':' :: n1.data) ++ ':' :: (boolStr a1).data)
        ++ ':' :: (boolStr b1).data
      = (('p' :: 'k' :: 'g' :: ':' :: n2.data) ++ ':' :: (boolStr a2).data)
        ++ ':' :: (boolStr b2).data := by
    simpa [pkgKey, String.data_append, pkg_prefix_data, colon_data,
      List.append_assoc] using congrArg String.data h
  obtain ⟨h3, hb⟩ := splitSep_right (boolStr_colonFree b1) (boolStr_colonFree b2) hd
  obtain ⟨h4, ha⟩ := splitSep_right (boolStr_colonFree a1) (boolStr_colonFree a2) h3
  simp only [List.cons.injEq, true_and] at h4
  exact ⟨String.ext h4, boolStr_inj ha, boolStr_inj hb⟩

/-- The `user` key scheme is injective in all three parameters: the two
trailing components are decimal renderings of ints, hence colon-free. -/
theorem userKey_inj {u1 u2 : String} {s1 f1 s2 f2 : Int}
    (h : userKey u1 s1 f1 = userKey u2 s2 f2) : u1 = u2 ∧ s1 = s2 ∧ f1 = f2 := by
  have hd : (('u' :: 's' :: 'e' :: 'r' :: ':' :: u1.data) ++ ':' :: (intStr s1).data)
        ++ ':' :: (intStr f1).data
      = (('u' :: 's' :: 'e' :: 'r' :: ':' :: u2.data) ++ ':' :: (intStr s2).data)
        ++ ':' :: (intStr f2).data := by
    simpa [userKey, String.data_append, user_prefix_data, colon_data,
      List.append_assoc] using congrArg String.data h
  obtain ⟨h3, hb⟩ := splitSep_right (colon_notMem_intStr f1) (colon_notMem_intStr f2) hd
  obtain ⟨h4, ha⟩ := splitSep_right (colon_notMem_intStr s1) (colon_notMem_intStr s2) h3
  simp only [List.cons.injEq, true_and] at h4
  refine ⟨String.ext h4, intStr_inj (String.ext ha), intStr_inj (String.ext hb)⟩

/-- The `chart` key scheme is injective provided the range strings are
colon-free (named ranges are; explicit `YYYY-MM-DD:YYYY-MM-DD` spans are
not, and genuinely collide — see the counterexample to C4). -/
theorem chartKey_inj {p1 p2 r1 r2 : String}
    (hr1 : ':' ∉ r1.data) (hr2 : ':' ∉ r2.data)
    (h : chartKey p1 r1 = chartKey p2 r2) : p1 = p2 ∧ r1 = r2 := by
  have hd : ('c' :: 'h' :: 'a' :: 'r' :: 't' :: ':' :: p1.data) ++ ':' :: r1.data
      = ('c' :: 'h' :: 'a' :: 'r' :: 't' :: ':' :: p2.data) ++ ':' :: r2.data := by
    simpa [chartKey, String.data_append, chart_prefix_data, colon_data,
      List.append_assoc] using congrArg String.data h
  obtain ⟨h3, hr⟩ := splitSep_right hr1 hr2 hd
  simp only [List.cons.injEq, true_and] at h3
  exact ⟨String.ext h3, String.ext hr⟩

theorem pkgKey_head (n : String) (a b : Bool) :
    (pkgKey n a b).data.head? = some 'p' := by
  simp [pkgKey, String.data_append, pkg_prefix_data]

theorem userKey_head (u : String) (s f : Int) :
    (userKey u s f).data.head? = some 'u' := by
  simp [userKey, String.data_append, user_prefix_data]

theorem chartKey_head (p r : String) :
    (chartKey p r).data.head? = some 'c' := by
  simp [chartKey, String.data_append, chart_prefix_data]

/-!
## Claim C2 — cache TTL correctness
-/

/-- C2: a value stored at time `T` under any key is returned by
`get_from_cache` at every time `t` with `t - T ≤ TTL` (with the cache left
untouched), and at every time `t` with `t - T > TTL` the lookup returns
absent and removes the entry; in particular the value is retrievable at
`T + TTL - 1` and not retrievable at `T + TTL + 1`. -/
theorem c2_cache_ttl_correct (ttl T : Nat) (c : Cache) (key : String) (val : CacheVal) :
    (∀ t, t - T ≤ ttl →
      get_from_cache ttl t (set_cache T c key val) key
        = (some val, set_cache T c key val)) ∧
    (∀ t, t - T > ttl →
      (get_from_cache ttl t (set_cache T c key val) key).1 = none ∧
      (get_from_cache ttl t (set_cache T c key val) key).2 key = none) ∧
    get_from_cache ttl (T + ttl - 1) (set_cache T c key val) key
      = (some val, set_cache T c key val) ∧
    (get_from_cache ttl (T + ttl + 1) (set_cache T c key val) key).1 = none := by
  refine ⟨?_, ?_, ?_, ?_⟩
  · intro t ht
    have hc : ¬ (t - T > ttl) := by omega
    simp [get_from_cache, set_cache, hc]
  · intro t ht
    simp [get_from_cache, set_cache, ht]
  · have hc : ¬ (T + ttl - 1 - T > ttl) := by omega
    simp [get_from_cache, set_cache, hc]
  · have hc : T + ttl + 1 - T > ttl := by omega
    simp [get_from_cache, set_cache, hc]

/-- Witness for C2 at `TTL = 60`, store time `100`: retrievable at `159`,
absent at `161`. -/
theorem c2_witness :
    get_from_cache 60 159
        (set_cache 100 emptyCache "k" (CacheVal.chart [⟨"2024-01-01", 5⟩])) "k"
      = (some (CacheVal.chart [⟨"2024-01-01", 5⟩]),
         set_cache 100 emptyCache "k" (CacheVal.chart [⟨"2024-01-01", 5⟩])) ∧
    (get_from_cache 60 161
        (set_cache 100 emptyCache "k" (CacheVal.chart [⟨"2024-01-01", 5⟩])) "k").1
      = none :=
  ⟨(c2_cache_ttl_correct 60 100 emptyCache "k" (CacheVal.chart [⟨"2024-01-01", 5⟩])).1
      159 (by decide),
   ((c2_cache_ttl_correct 60 100 emptyCache "k" (CacheVal.chart [⟨"2024-01-01", 5⟩])).2.1
      161 (by decide)).1⟩

/-!
## Claim C4 — cache-key sensitivity
-/

/-- C4 counterexample: the chart key scheme concatenates the package name
and the range with a bare `":"`, and an explicit date range contains a
colon, so two requests differing in both response-affecting parameters
build the identical cache key `"chart:a:b:c"`. The claim "for every pair
of requests differing in any response-affecting parameter, the constructed
cache keys differ" is therefore false as stated. -/
theorem c4_counterexample :
    Request.chart "a:b" "c" ≠ Request.chart "a" "b:c" ∧
    cacheKey (Request.chart "a:b" "c") = cacheKey (Request.chart "a" "b:c") :=
  ⟨by decide, by decide⟩

/-- C4 amended: for every pair of requests that differ in the request type
or in any response-affecting parameter, the constructed cache keys differ —
provided that any chart request's range string is colon-free (named ranges
are; explicit `YYYY-MM-DD:YYYY-MM-DD` spans are not, and such pairs can
collide, as the counterexample shows). The pkg and user schemes need no
side condition: their trailing components (the `0`/`1` flags, the decimal
size and offset) never contain a colon, so their keys parse unambiguously
even when the name contains colons. -/
theorem c4_amended_key_sensitivity (r1 r2 : Request)
    (h1 : ∀ p r, r1 = Request.chart p r → ':' ∉ r.data)
    (h2 : ∀ p r, r2 = Request.chart p r → ':' ∉ r.data)
    (hne : r1 ≠ r2) : cacheKey r1 ≠ cacheKey r2 := by
  intro heq
  apply hne
  cases r1 with
  | pkg n1 a1 b1 =>
    cases r2 with
    | pkg n2 a2 b2 =>
      obtain ⟨e1, e2, e3⟩ := pkgKey_inj heq
      rw [e1, e2, e3]
    | user u s f =>
      have hh := congrArg (fun s => s.data.head?) heq
      simp [cacheKey, pkgKey_head, userKey_head] at hh
    | chart p r =>
      have hh := congrArg (fun s => s.data.head?) heq
      simp [cacheKey, pkgKey_head, chartKey_head] at hh
  | user u1 s1 f1 =>
    cases r2 with
    | pkg n2 a2 b2 =>
      have hh := congrArg (fun s => s.data.head?) heq
      simp [cacheKey, pkgKey_head, userKey_head] at hh
    | user u2 s2 f2 =>
      obtain ⟨e1, e2, e3⟩ := userKey_inj heq
      rw [e1, e2, e3]
    | chart p r =>
      have hh := congrArg (fun s => s.data.head?) heq
      simp [cacheKey, userKey_head, chartKey_head] at hh
  | chart p1 r1 =>
    cases r2 with
    | pkg n2 a2 b2 =>
      have hh := congrArg (fun s => s.data.head?) heq
      simp [cacheKey, pkgKey_head, chartKey_head] at hh
    | user u s f =>
      have hh := congrArg (fun s => s.data.head?) heq
      simp [cacheKey, userKey_head, chartKey_head] at hh
    | chart p2 r2 =>
      obtain ⟨e1, e2⟩ := chartKey_inj (h1 p1 r1 rfl) (h2 p2 r2 rfl) heq
      rw [e1, e2]

/-- Witness for the amended C4: two concrete distinct pkg requests get
distinct keys. -/
theorem c4_witness :
    cacheKey (Request.pkg "lodash" false false)
      ≠ cacheKey (Request.pkg "lodash" true false) :=
  c4_amended_key_sensitivity _ _
    (fun _ _ h => Request.noConfusion h)
    (fun _ _ h => Request.noConfusion h)
    (by decide)

/-!
## Helper lemmas: handler reductions and inversions
-/

theorem get_package_of_miss {ttl now : Nat} {w : PkgWorld} {c : Cache}
    {name : String} {iv ir : Bool}
    (hmiss : c (pkgKey name iv ir) = none) :
    get_package ttl now w c name iv ir
      = get_package_miss now w c (pkgKey name iv ir) iv ir := by
  simp [get_package, get_from_cache, hmiss]

theorem get_user_packages_of_miss {ttl now : Nat} {w : FetchOutcome SearchResp}
    {c : Cache} {username : String} {size fromOff : Int}
    (hmiss : c (userKey username size fromOff) = none) :
    get_user_packages ttl now w c username size fromOff
      = get_user_packages_miss now w c (userKey username size fromOff) username := by
  simp [get_user_packages, get_from_cache, hmiss]

theorem package_downloads_chart_of_miss {ttl now : Nat}
    {w : FetchOutcome RangeResp} {c : Cache} {package range_ : String}
    (hmiss : c (chartKey package range_) = none) :
    package_downloads_chart ttl now w c package range_
      = package_downloads_chart_miss now w c (chartKey package range_) := by
  simp [package_downloads_chart, get_from_cache, hmiss]

theorem get_from_cache_snd (ttl now : Nat) (c : Cache) (key : String) :
    ∀ k, (get_from_cache ttl now c key).2 k = c k
      ∨ (get_from_cache ttl now c key).2 k = none := by
  intro k
  unfold get_from_cache
  cases hc : c key with
  | none => simp
  | some ent =>
    simp only []
    split
    · by_cases hk : k = key <;> simp [hk]
    · simp

theorem get_package_miss_error {now : Nat} {w : PkgWorld} {c : Cache}
    {key : String} {iv ir : Bool} {e : ApiError} {c2 : Cache} {n : Nat}
    (h : get_package_miss now w c key iv ir = (.error e, c2, n)) : c2 = c := by
  unfold get_package_miss at h
  cases hr : fetch_registry w.registry <;> rw [hr] at h
  · simp only [Prod.mk.injEq] at h
    exact h.2.1.symm
  · cases hd : fetch_downloads w.downloads <;> rw [hd] at h
    · simp only [Prod.mk.injEq] at h
      exact h.2.1.symm
    · simp at h

theorem get_package_miss_ok {now : Nat} {w : PkgWorld} {c : Cache}
    {key : String} {iv ir : Bool} {v : CacheVal} {c2 : Cache} {n : Nat}
    (h : get_package_miss now w c key iv ir = (.ok v, c2, n)) :
    c2 = set_cache now c key v ∧ n = 2 := by
  unfold get_package_miss at h
  cases hr : fetch_registry w.registry <;> rw [hr] at h
  · simp at h
  · cases hd : fetch_downloads w.downloads <;> rw [hd] at h
    · simp at h
    · simp only [Prod.mk.injEq, Except.ok.injEq] at h
      obtain ⟨hv, hc2, hn⟩ := h
      exact ⟨by rw [← hc2, hv], hn.symm⟩

theorem get_user_packages_miss_error {now : Nat} {w : FetchOutcome SearchResp}
    {c : Cache} {key username : String} {e : ApiError} {c2 : Cache} {n : Nat}
    (h : get_user_packages_miss now w c key username = (.error e, c2, n)) :
    c2 = c := by
  unfold get_user_packages_miss at h
  cases w with
  | exn =>
    simp only [Prod.mk.injEq] at h
    exact h.2.1.symm
  | success code data =>
    by_cases hc : code = 200
    · simp [hc] at h
    · simp only [hc, if_false, Prod.mk.injEq] at h
      exact h.2.1.symm

theorem get_user_packages_miss_ok {now : Nat} {w : FetchOutcome SearchResp}
    {c : Cache} {key username : String} {v : CacheVal} {c2 : Cache} {n : Nat}
    (h : get_user_packages_miss now w c key username = (.ok v, c2, n)) :
    c2 = set_cache now c key v ∧ n = 1 := by
  unfold get_user_packages_miss at h
  cases w with
  | exn => simp at h
  | success code data =>
    by_cases hc : code = 200
    · simp only [hc, if_true, Prod.mk.injEq, Except.ok.injEq] at h
      obtain ⟨hv, hc2, hn⟩ := h
      exact ⟨by rw [← hc2, hv], hn.symm⟩
    · simp [hc] at h

theorem package_downloads_chart_miss_error {now : Nat}
    {w : FetchOutcome RangeResp} {c : Cache} {key : String}
    {e : ApiError} {c2 : Cache} {n : Nat}
    (h : package_downloads_chart_miss now w c key = (.error e, c2, n)) :
    c2 = c := by
  cases w with
  | exn =>
    simp only [package_downloads_chart_miss, Prod.mk.injEq] at h
    exact h.2.1.symm
  | success code data =>
    simp only [package_downloads_chart_miss] at h
    by_cases h404 : code = 404
    · rw [if_pos h404] at h
      simp only [Prod.mk.injEq] at h
      exact h.2.1.symm
    · by_cases h2xx : 200 ≤ code ∧ code < 300
      · rw [if_neg h404, if_pos h2xx] at h
        cases hs : shapeChart (data.downloads.getD []) <;> rw [hs] at h
        · simp only [Prod.mk.injEq] at h
          exact h.2.1.symm
        · simp at h
      · rw [if_neg h404, if_neg h2xx] at h
        simp only [Prod.mk.injEq] at h
        exact h.2.1.symm

theorem package_downloads_chart_miss_ok {now : Nat}
    {w : FetchOutcome RangeResp} {c : Cache} {key : String}
    {v : CacheVal} {c2 : Cache} {n : Nat}
    (h : package_downloads_chart_miss now w c key = (.ok v, c2, n)) :
    c2 = set_cache now c key v ∧ n = 1 := by
  cases w with
  | exn => simp [package_downloads_chart_miss] at h
  | success code data =>
    simp only [package_downloads_chart_miss] at h
    by_cases h404 : code = 404
    · rw [if_pos h404] at h
      simp at h
    · by_cases h2xx : 200 ≤ code ∧ code < 300
      · rw [if_neg h404, if_pos h2xx] at h
        cases hs : shapeChart (data.downloads.getD []) <;> rw [hs] at h
        · simp at h
        · simp only [Prod.mk.injEq, Except.ok.injEq] at h
          obtain ⟨hv, hc2, hn⟩ := h
          exact ⟨by rw [← hc2, hv], hn.symm⟩
      · rw [if_neg h404, if_neg h2xx] at h
        simp at h

theorem shapeChart_total (ps : List (String × Int)) :
    shapeChart (ps.map (fun p => ⟨some p.1, some p.2⟩))
      = some (ps.map (fun p => ⟨p.1, p.2⟩)) := by
  induction ps with
  | nil => rfl
  | cons p t ih => simp [shapeChart, ih]

theorem shapeChart_missing {recs : List DayRecord}
    (h : ∃ d ∈ recs, d.day = none ∨ d.downloads = none) :
    shapeChart recs = none := by
  induction recs with
  | nil => simp at h
  | cons d t ih =>
    rcases h with ⟨d2, hmem, hbad⟩
    rcases List.mem_cons.mp hmem with he | hm
    · subst he
      cases hday : d2.day <;> cases hdl : d2.downloads <;>
        cases hsc : shapeChart t <;> simp_all [shapeChart]
    · have hn := ih ⟨d2, hm, hbad⟩
      cases hday : d.day <;> cases hdl : d.downloads <;> simp_all [shapeChart]

theorem get_package_error_shrink {ttl now : Nat} {w : PkgWorld} {c : Cache}
    {name : String} {iv ir : Bool} {e : ApiError} {c2 : Cache} {n : Nat}
    (h : get_package ttl now w c name iv ir = (.error e, c2, n)) :
    ∀ k, c2 k = c k ∨ c2 k = none := by
  intro k
  simp only [get_package] at h
  split at h
  · split at h
    · simp at h
    · have hc2 : c2 = (get_from_cache ttl now c (pkgKey name iv ir)).2 :=
        get_package_miss_error h
      rw [hc2]
      exact get_from_cache_snd ttl now c (pkgKey name iv ir) k
  · have hc2 : c2 = (get_from_cache ttl now c (pkgKey name iv ir)).2 :=
      get_package_miss_error h
    rw [hc2]
    exact get_from_cache_snd ttl now c (pkgKey name iv ir) k

theorem get_user_packages_error_shrink {ttl now : Nat}
    {w : FetchOutcome SearchResp} {c : Cache} {username : String}
    {size fromOff : Int} {e : ApiError} {c2 : Cache} {n : Nat}
    (h : get_user_packages ttl now w c username size fromOff = (.error e, c2, n)) :
    ∀ k, c2 k = c k ∨ c2 k = none := by
  intro k
  simp only [get_user_packages] at h
  split at h
  · split at h
    · simp at h
    · have hc2 : c2 = (get_from_cache ttl now c (userKey username size fromOff)).2 :=
        get_user_packages_miss_error h
      rw [hc2]
      exact get_from_cache_snd ttl now c (userKey username size fromOff) k
  · have hc2 : c2 = (get_from_cache ttl now c (userKey username size fromOff)).2 :=
      get_user_packages_miss_error h
    rw [hc2]
    exact get_from_cache_snd ttl now c (userKey username size fromOff) k

theorem package_downloads_chart_error_shrink {ttl now : Nat}
    {w : FetchOutcome RangeResp} {c : Cache} {package range_ : String}
    {e : ApiError} {c2 : Cache} {n : Nat}
    (h : package_downloads_chart ttl now w c package range_ = (.error e, c2, n)) :
    ∀ k, c2 k = c k ∨ c2 k = none := by
  intro k
  simp only [package_downloads_chart] at h
  split at h
  · split at h
    · simp at h
    · have hc2 : c2 = (get_from_cache ttl now c (chartKey package range_)).2 :=
        package_downloads_chart_miss_error h
      rw [hc2]
      exact get_from_cache_snd ttl now c (chartKey package range_) k
  · have hc2 : c2 = (get_from_cache ttl now c (chartKey package range_)).2 :=
      package_downloads_chart_miss_error h
    rw [hc2]
    exact get_from_cache_snd ttl now c (chartKey package range_) k

/-!
## Claim C1 — downloads sub-call failure tolerance
-/

/-- C1 counterexample: a known package (the registry call succeeds with a
2xx and full metadata) whose weekly-downloads call raises a transport
error/timeout (`FetchOutcome.exn`). The claim predicts the aggregation
still succeeds with `downloads_last_week = null`; the code instead lets
the exception escape `fetch_downloads`, so the whole request fails. Only
a 404 from the downloads endpoint is tolerated. -/
theorem c1_counterexample :
    fetch_registry (FetchOutcome.success 200
        ⟨some "left-pad", none, none, none, some [("latest", "1.3.0")],
         some [("1.3.0", ⟨some "1.3.0", some "MIT", none, none⟩)], none⟩)
      = .ok ⟨some "left-pad", none, none, none, some [("latest", "1.3.0")],
         some [("1.3.0", ⟨some "1.3.0", some "MIT", none, none⟩)], none⟩ ∧
    (get_package 60 0
        ⟨FetchOutcome.success 200
          ⟨some "left-pad", none, none, none, some [("latest", "1.3.0")],
           some [("1.3.0", ⟨some "1.3.0", some "MIT", none, none⟩)], none⟩,
         FetchOutcome.exn⟩
        emptyCache "left-pad" false false).1
      = .error .upstreamError :=
  ⟨rfl, rfl⟩

/-- C1 amended: for a known package on a cache miss, the aggregation
succeeds with `downloads_last_week = null` when the weekly-downloads call
returns 404 (the only tolerated failure); a transport error/timeout or any
non-2xx, non-404 status from the weekly-downloads call propagates and
fails the whole request with nothing cached. -/
theorem c1_amended_downloads_only_404_tolerated (ttl now : Nat) (w : PkgWorld)
    (c : Cache) (name : String) (iv ir : Bool) (reg : RegistryMeta)
    (hmiss : c (pkgKey name iv ir) = none)
    (hreg : fetch_registry w.registry = .ok reg) :
    (∀ dbody, w.downloads = .success 404 dbody →
      (get_package ttl now w c name iv ir).1
        = .ok (.pkg (shapeSummary reg [] iv ir)) ∧
      (shapeSummary reg [] iv ir).downloads_last_week = none) ∧
    (w.downloads = .exn →
      get_package ttl now w c name iv ir = (.error .upstreamError, c, 2)) ∧
    (∀ dcode dbody, w.downloads = .success dcode dbody → dcode ≠ 404 →
      ¬ (200 ≤ dcode ∧ dcode < 300) →
      get_package ttl now w c name iv ir = (.error .upstreamError, c, 2)) := by
  refine ⟨?_, ?_, ?_⟩
  · intro dbody hdl
    constructor
    · rw [get_package_of_miss hmiss]
      simp [get_package_miss, hreg, fetch_downloads, hdl]
    · simp [shapeSummary]
  · intro hexn
    rw [get_package_of_miss hmiss]
    simp [get_package_miss, hreg, fetch_downloads, hexn]
  · intro dcode dbody hdl h404 h2xx
    rw [get_package_of_miss hmiss]
    simp [get_package_miss, hreg, fetch_downloads, hdl, h404, h2xx]

/-- Witness for the amended C1: concrete known package, downloads call
times out, request fails with an upstream error and two issued fetches. -/
theorem c1_witness :
    get_package 60 0
        ⟨FetchOutcome.success 200
          ⟨some "left-pad", none, none, none, some [("latest", "1.3.0")],
           some [("1.3.0", ⟨some "1.3.0", some "MIT", none, none⟩)], none⟩,
         FetchOutcome.exn⟩
        emptyCache "left-pad" false false
      = (.error .upstreamError, emptyCache, 2) :=
  (c1_amended_downloads_only_404_tolerated 60 0
    ⟨FetchOutcome.success 200
      ⟨some "left-pad", none, none, none, some [("latest", "1.3.0")],
       some [("1.3.0", ⟨some "1.3.0", some "MIT", none, none⟩)], none⟩,
     FetchOutcome.exn⟩
    emptyCache "left-pad" false false
    ⟨some "left-pad", none, none, none, some [("latest", "1.3.0")],
     some [("1.3.0", ⟨some "1.3.0", some "MIT", none, none⟩)], none⟩
    rfl rfl).2.1 rfl

/-!
## Claim C5 — not-found atomicity, errors never cached
-/

/-- C5: on a cache miss for the package key, a registry 404 makes
`get_package` raise the 404 `HTTPException`, leaves the cache exactly as it
was, and issues one upstream call — at every request time, so a subsequent
identical request re-triggers the upstream call. More generally, whenever
any of the three aggregations terminates in an error, the resulting cache
holds no new or updated entry: every key is either unchanged or removed
(lazy expiry may pop an over-age entry during the lookup). -/
theorem c5_not_found_atomicity (ttl : Nat) (c : Cache) :
    (∀ (t : Nat) (w : PkgWorld) (name : String) (iv ir : Bool)
        (body : RegistryMeta),
      c (pkgKey name iv ir) = none →
      w.registry = .success 404 body →
      get_package ttl t w c name iv ir
        = (.error (.httpError 404 "Package not found"), c, 1)) ∧
    (∀ (now : Nat) (w : PkgWorld) (name : String) (iv ir : Bool)
        (e : ApiError) (c2 : Cache) (n : Nat),
      get_package ttl now w c name iv ir = (.error e, c2, n) →
      ∀ k, c2 k = c k ∨ c2 k = none) ∧
    (∀ (now : Nat) (w : FetchOutcome SearchResp) (u : String)
        (size fromOff : Int) (e : ApiError) (c2 : Cache) (n : Nat),
      get_user_packages ttl now w c u size fromOff = (.error e, c2, n) →
      ∀ k, c2 k = c k ∨ c2 k = none) ∧
    (∀ (now : Nat) (w : FetchOutcome RangeResp) (p r : String)
        (e : ApiError) (c2 : Cache) (n : Nat),
      package_downloads_chart ttl now w c p r = (.error e, c2, n) →
      ∀ k, c2 k = c k ∨ c2 k = none) := by
  refine ⟨?_, ?_, ?_, ?_⟩
  · intro t w name iv ir body hmiss hreg
    rw [get_package_of_miss hmiss]
    simp [get_package_miss, fetch_registry, hreg]
  · intro now w name iv ir e c2 n h
    exact get_package_error_shrink h
  · intro now w u size fromOff e c2 n h
    exact get_user_packages_error_shrink h
  · intro now w p r e c2 n h
    exact package_downloads_chart_error_shrink h

/-- Witness for C5: a concrete absent package — 404 surfaced, cache
untouched, one upstream call issued. -/
theorem c5_witness :
    get_package 60 5 ⟨FetchOutcome.success 404
        ⟨none, none, none, none, none, none, none⟩, FetchOutcome.exn⟩
      emptyCache "no-such-pkg" false false
      = (.error (.httpError 404 "Package not found"), emptyCache, 1) :=
  (c5_not_found_atomicity 60 emptyCache).1 5
    ⟨FetchOutcome.success 404 ⟨none, none, none, none, none, none, none⟩,
     FetchOutcome.exn⟩
    "no-such-pkg" false false
    ⟨none, none, none, none, none, none, none⟩ rfl rfl

/-!
## Claim C6 — downloads 404 treated as no data
-/

/-- C6: when the weekly-downloads endpoint returns 404, `fetch_downloads`
yields the empty dict rather than an error, and `get_package` succeeds
with `downloads_last_week = null` while every metadata-derived field of
the summary is still taken from the registry body. -/
theorem c6_downloads_404_null (ttl now : Nat) (w : PkgWorld) (c : Cache)
    (name : String) (iv ir : Bool) (reg : RegistryMeta)
    (dbody : List (String × Int))
    (hmiss : c (pkgKey name iv ir) = none)
    (hreg : fetch_registry w.registry = .ok reg)
    (hdl : w.downloads = .success 404 dbody) :
    fetch_downloads w.downloads = .ok [] ∧
    get_package ttl now w c name iv ir
      = (.ok (.pkg (shapeSummary reg [] iv ir)),
         set_cache now c (pkgKey name iv ir) (.pkg (shapeSummary reg [] iv ir)),
         2) ∧
    (shapeSummary reg [] iv ir).downloads_last_week = none ∧
    (shapeSummary reg [] iv ir).name = reg.name ∧
    (shapeSummary reg [] iv ir).description = reg.description ∧
    (shapeSummary reg [] iv ir).homepage = reg.homepage ∧
    (shapeSummary reg [] iv ir).repository = reg.repository ∧
    (shapeSummary reg [] iv ir).latest = dictGet (reg.distTags.getD []) "latest" := by
  refine ⟨?_, ?_, ?_, ?_, ?_, ?_, ?_, ?_⟩
  · simp [fetch_downloads, hdl]
  · rw [get_package_of_miss hmiss]
    simp [get_package_miss, hreg, fetch_downloads, hdl]
  · simp [shapeSummary]
  · simp [shapeSummary]
  · simp [shapeSummary]
  · simp [shapeSummary]
  · simp [shapeSummary]
  · simp [shapeSummary]

/-- Witness for C6: concrete package whose downloads endpoint 404s — the
request succeeds and stores the summary. -/
theorem c6_witness :
    get_package 60 0
        ⟨FetchOutcome.success 200
          ⟨some "left-pad", some "pads", none, none, some [("latest", "1.3.0")],
           some [("1.3.0", ⟨some "1.3.0", some "MIT", none, none⟩)], none⟩,
         FetchOutcome.success 404 []⟩
        emptyCache "left-pad" false false
      = (.ok (.pkg (shapeSummary
            ⟨some "left-pad", some "pads", none, none, some [("latest", "1.3.0")],
             some [("1.3.0", ⟨some "1.3.0", some "MIT", none, none⟩)], none⟩
            [] false false)),
         set_cache 0 emptyCache (pkgKey "left-pad" false false)
           (.pkg (shapeSummary
             ⟨some "left-pad", some "pads", none, none, some [("latest", "1.3.0")],
              some [("1.3.0", ⟨some "1.3.0", some "MIT", none, none⟩)], none⟩
             [] false false)),
         2) :=
  (c6_downloads_404_null 60 0
    ⟨FetchOutcome.success 200
      ⟨some "left-pad", some "pads", none, none, some [("latest", "1.3.0")],
       some [("1.3.0", ⟨some "1.3.0", some "MIT", none, none⟩)], none⟩,
     FetchOutcome.success 404 []⟩
    emptyCache "left-pad" false false
    ⟨some "left-pad", some "pads", none, none, some [("latest", "1.3.0")],
     some [("1.3.0", ⟨some "1.3.0", some "MIT", none, none⟩)], none⟩
    [] rfl rfl rfl).2.1

/-!
## Claim C7 — version-list truncation
-/

/-- C7: with `include_versions = true`, the summary's `versions` field is
`versions[-20:]` applied to the keys of the upstream version manifest in
their original order: when there are more than 20 keys it is exactly the
final 20 of them (a suffix of length 20, i.e. the tail, not the head); with
20 or fewer keys it is the whole key list unchanged. -/
theorem c7_version_truncation (ttl now : Nat) (w : PkgWorld) (c : Cache)
    (name : String) (ir : Bool) (reg : RegistryMeta)
    (dbody : List (String × Int))
    (hmiss : c (pkgKey name true ir) = none)
    (hreg : fetch_registry w.registry = .ok reg)
    (hdl : fetch_downloads w.downloads = .ok dbody) :
    (get_package ttl now w c name true ir).1
      = .ok (.pkg (shapeSummary reg dbody true ir)) ∧
    (shapeSummary reg dbody true ir).versions
      = some (((reg.versions.getD []).map Prod.fst).drop
          (((reg.versions.getD []).map Prod.fst).length - 20)) ∧
    (((reg.versions.getD []).map Prod.fst).length ≤ 20 →
      (shapeSummary reg dbody true ir).versions
        = some ((reg.versions.getD []).map Prod.fst)) ∧
    (20 < ((reg.versions.getD []).map Prod.fst).length →
      (((reg.versions.getD []).map Prod.fst).drop
          (((reg.versions.getD []).map Prod.fst).length - 20)).length = 20 ∧
      ((reg.versions.getD []).map Prod.fst).take
          (((reg.versions.getD []).map Prod.fst).length - 20)
        ++ ((reg.versions.getD []).map Prod.fst).drop
          (((reg.versions.getD []).map Prod.fst).length - 20)
        = (reg.versions.getD []).map Prod.fst) := by
  refine ⟨?_, ?_, ?_, ?_⟩
  · rw [get_package_of_miss hmiss]
    simp [get_package_miss, hreg, hdl]
  · simp [shapeSummary]
  · intro hle
    have hle2 : (reg.versions.getD []).length ≤ 20 := by simpa using hle
    have h0 : (reg.versions.getD []).length - 20 = 0 := by omega
    simp [shapeSummary, h0]
  · intro hgt
    constructor
    · rw [List.length_drop]
      omega
    · exact List.take_append_drop _ _

/-- Witness for C7: a concrete manifest with three versions — all three
keys are returned in order. -/
theorem c7_witness :
    (get_package 60 0
        ⟨FetchOutcome.success 200
          ⟨some "p", none, none, none, some [("latest", "3.0.0")],
           some [("1.0.0", ⟨none, none, none, none⟩),
                 ("2.0.0", ⟨none, none, none, none⟩),
                 ("3.0.0", ⟨none, none, none, none⟩)], none⟩,
         FetchOutcome.success 404 []⟩
        emptyCache "p" true false).1
      = .ok (.pkg (shapeSummary
          ⟨some "p", none, none, none, some [("latest", "3.0.0")],
           some [("1.0.0", ⟨none, none, none, none⟩),
                 ("2.0.0", ⟨none, none, none, none⟩),
                 ("3.0.0", ⟨none, none, none, none⟩)], none⟩
          [] true false)) ∧
    (shapeSummary
          ⟨some "p", none, none, none, some [("latest", "3.0.0")],
           some [("1.0.0", ⟨none, none, none, none⟩),
                 ("2.0.0", ⟨none, none, none, none⟩),
                 ("3.0.0", ⟨none, none, none, none⟩)], none⟩
          [] true false).versions
      = some ["1.0.0", "2.0.0", "3.0.0"] := by
  have h := c7_version_truncation 60 0
    ⟨FetchOutcome.success 200
      ⟨some "p", none, none, none, some [("latest", "3.0.0")],
       some [("1.0.0", ⟨none, none, none, none⟩),
             ("2.0.0", ⟨none, none, none, none⟩),
             ("3.0.0", ⟨none, none, none, none⟩)], none⟩,
     FetchOutcome.success 404 []⟩
    emptyCache "p" false
    ⟨some "p", none, none, none, some [("latest", "3.0.0")],
     some [("1.0.0", ⟨none, none, none, none⟩),
           ("2.0.0", ⟨none, none, none, none⟩),
           ("3.0.0", ⟨none, none, none, none⟩)], none⟩
    [] rfl rfl rfl
  exact ⟨h.1, h.2.2.1 (by decide)⟩

/-!
## Claim C8 — user-packages aggregation
-/

/-- C8: on a cache miss for the user key, any status other than exactly 200
from the maintainer-search endpoint is a fatal `HTTPException(502)` with no
partial result and no cache write; on 200 the response is exactly
`{username, count: upstream total (0 if absent), packages: the projected
hits in upstream order}`, which is stored and returned. -/
theorem c8_user_packages (ttl now : Nat) (w : FetchOutcome SearchResp)
    (c : Cache) (username : String) (size fromOff : Int)
    (hmiss : c (userKey username size fromOff) = none) :
    (∀ code data, w = .success code data → code ≠ 200 →
      get_user_packages ttl now w c username size fromOff
        = (.error (.httpError 502 "Failed to fetch user packages"), c, 1)) ∧
    (∀ data, w = .success 200 data →
      get_user_packages ttl now w c username size fromOff
        = (.ok (.user ⟨username, data.total.getD 0,
            (data.objects.getD []).map
              (fun o => projectSearchHit (o.package.getD SearchPkgInfo.empty))⟩),
           set_cache now c (userKey username size fromOff)
             (.user ⟨username, data.total.getD 0,
               (data.objects.getD []).map
                 (fun o => projectSearchHit (o.package.getD SearchPkgInfo.empty))⟩),
           1)) := by
  constructor
  · intro code data hw hc
    rw [get_user_packages_of_miss hmiss, hw]
    simp [get_user_packages_miss, hc]
  · intro data hw
    rw [get_user_packages_of_miss hmiss, hw]
    simp [get_user_packages_miss]

/-- Witness for C8: one concrete search hit is projected in order and the
absent fields default. -/
theorem c8_witness :
    get_user_packages 60 0
        (FetchOutcome.success 200
          ⟨some [⟨some ⟨some "pkg-a", some "1.0.0", none, none, none⟩⟩],
           some 1⟩)
        emptyCache "bob" 10 0
      = (.ok (.user ⟨"bob", 1,
          [⟨some "pkg-a", some "1.0.0", none, none, none⟩]⟩),
         set_cache 0 emptyCache (userKey "bob" 10 0)
           (.user ⟨"bob", 1, [⟨some "pkg-a", some "1.0.0", none, none, none⟩]⟩),
         1) :=
  (c8_user_packages 60 0
    (FetchOutcome.success 200
      ⟨some [⟨some ⟨some "pkg-a", some "1.0.0", none, none, none⟩⟩], some 1⟩)
    emptyCache "bob" 10 0 rfl).2
    ⟨some [⟨some ⟨some "pkg-a", some "1.0.0", none, none, none⟩⟩], some 1⟩
    rfl

/-!
## Claim C9 — downloads-chart shaping
-/

/-- C9: on a cache miss, for an upstream 2xx payload whose `downloads`
array consists of records each carrying a `day` and a `downloads` field
(given here as the list `ps` of pairs), the handler maps each record to
`{date: day, downloads: downloads}` preserving the upstream order, and both
stores and returns the resulting bare ordered list (`CacheVal.chart` holds
the list itself, not a wrapping object). -/
theorem c9_chart_shaping (ttl now : Nat) (w : FetchOutcome RangeResp)
    (c : Cache) (package range_ : String) (code : Nat)
    (ps : List (String × Int))
    (hmiss : c (chartKey package range_) = none)
    (hw : w = .success code ⟨some (ps.map (fun p => ⟨some p.1, some p.2⟩))⟩)
    (h404 : code ≠ 404) (h2xx : 200 ≤ code ∧ code < 300) :
    package_downloads_chart ttl now w c package range_
      = (.ok (.chart (ps.map (fun p => ⟨p.1, p.2⟩))),
         set_cache now c (chartKey package range_)
           (.chart (ps.map (fun p => ⟨p.1, p.2⟩))),
         1) := by
  rw [package_downloads_chart_of_miss hmiss, hw]
  simp only [package_downloads_chart_miss]
  rw [if_neg h404, if_pos h2xx]
  simp [shapeChart_total]

/-- Witness for C9: two concrete day records shaped in order. -/
theorem c9_witness :
    package_downloads_chart 60 0
        (FetchOutcome.success 200
          ⟨some [⟨some "2024-01-01", some 3⟩, ⟨some "2024-01-02", some 0⟩]⟩)
        emptyCache "left-pad" "last-week"
      = (.ok (.chart [⟨"2024-01-01", 3⟩, ⟨"2024-01-02", 0⟩]),
         set_cache 0 emptyCache (chartKey "left-pad" "last-week")
           (.chart [⟨"2024-01-01", 3⟩, ⟨"2024-01-02", 0⟩]),
         1) :=
  c9_chart_shaping 60 0
    (FetchOutcome.success 200
      ⟨some [⟨some "2024-01-01", some 3⟩, ⟨some "2024-01-02", some 0⟩]⟩)
    emptyCache "left-pad" "last-week" 200
    [("2024-01-01", 3), ("2024-01-02", 0)]
    rfl rfl (by decide) (by decide)

/-!
## Claim C10 — chart shaping is not total
-/

/-- C10: unlike every other upstream field read in the module (which
defaults absent fields via `.get`), the chart comprehension indexes
`d["day"]` and `d["downloads"]` directly; for any 2xx payload containing a
day record lacking either field, the handler raises (an uncaught
`KeyError`, a 500 to the client) instead of producing a chart response,
and nothing is cached. -/
theorem c10_chart_not_total (ttl now : Nat) (w : FetchOutcome RangeResp)
    (c : Cache) (package range_ : String) (code : Nat) (data : RangeResp)
    (hmiss : c (chartKey package range_) = none)
    (hw : w = .success code data)
    (h404 : code ≠ 404) (h2xx : 200 ≤ code ∧ code < 300)
    (hbad : ∃ d ∈ data.downloads.getD [], d.day = none ∨ d.downloads = none) :
    package_downloads_chart ttl now w c package range_
      = (.error .keyError, c, 1) := by
  rw [package_downloads_chart_of_miss hmiss, hw]
  simp only [package_downloads_chart_miss]
  rw [if_neg h404, if_pos h2xx, shapeChart_missing hbad]

/-- Witness for C10: a 200 payload whose single day record lacks the
`day` field makes the handler raise. -/
theorem c10_witness :
    package_downloads_chart 60 0
        (FetchOutcome.success 200 ⟨some [⟨none, some 5⟩]⟩)
        emptyCache "left-pad" "last-week"
      = (.error .keyError, emptyCache, 1) :=
  c10_chart_not_total 60 0
    (FetchOutcome.success 200 ⟨some [⟨none, some 5⟩]⟩)
    emptyCache "left-pad" "last-week" 200 ⟨some [⟨none, some 5⟩]⟩
    rfl rfl (by decide) (by decide)
    ⟨⟨none, some 5⟩, by simp, Or.inl rfl⟩

/-!
## Claim C3 — idempotence within the TTL window
-/

/-- C3 counterexample: an upstream 200 whose `downloads` array is empty.
The first chart request succeeds with the empty list and issues one
upstream fetch; it stores the empty list, but the handler's `if cached:`
truthiness test rejects an empty list, so the identical request 10 seconds
later (well inside the 60-second TTL) issues a new upstream fetch instead
of being served from the cache — the fetch count does not stay at 1. -/
theorem c3_counterexample :
    (package_downloads_chart 60 0 (FetchOutcome.success 200 ⟨some []⟩)
        emptyCache "left-pad" "last-month").1
      = .ok (.chart []) ∧
    (package_downloads_chart 60 0 (FetchOutcome.success 200 ⟨some []⟩)
        emptyCache "left-pad" "last-month").2.2 = 1 ∧
    (package_downloads_chart 60 10 (FetchOutcome.success 200 ⟨some []⟩)
        (package_downloads_chart 60 0 (FetchOutcome.success 200 ⟨some []⟩)
          emptyCache "left-pad" "last-month").2.1
        "left-pad" "last-month").2.2 = 1 :=
  ⟨rfl, rfl, rfl⟩

/-- C3 amended: repeating an identical request at any time within the TTL
window after a first successful response returns output identical to the
first call, leaves the cache unchanged, and issues no new upstream fetch —
provided the first response is truthy under Python's `if cached:` test.
Package-info and user-packages responses are always truthy (non-empty
dicts), so for them the claim holds unconditionally; a chart response is
truthy exactly when the day list is non-empty, and an empty chart response
is re-fetched on every repetition (see the counterexample). -/
theorem c3_amended_idempotent_within_ttl (ttl now t2 : Nat)
    (ht : t2 - now ≤ ttl) :
    (∀ (w : PkgWorld) (c : Cache) (name : String) (iv ir : Bool)
        (v : CacheVal) (c1 : Cache) (n : Nat),
      c (pkgKey name iv ir) = none →
      get_package ttl now w c name iv ir = (.ok v, c1, n) →
      truthy v = true →
      get_package ttl t2 w c1 name iv ir = (.ok v, c1, 0)) ∧
    (∀ (w : FetchOutcome SearchResp) (c : Cache) (username : String)
        (size fromOff : Int) (v : CacheVal) (c1 : Cache) (n : Nat),
      c (userKey username size fromOff) = none →
      get_user_packages ttl now w c username size fromOff = (.ok v, c1, n) →
      truthy v = true →
      get_user_packages ttl t2 w c1 username size fromOff = (.ok v, c1, 0)) ∧
    (∀ (w : FetchOutcome RangeResp) (c : Cache) (package range_ : String)
        (v : CacheVal) (c1 : Cache) (n : Nat),
      c (chartKey package range_) = none →
      package_downloads_chart ttl now w c package range_ = (.ok v, c1, n) →
      truthy v = true →
      package_downloads_chart ttl t2 w c1 package range_ = (.ok v, c1, 0)) := by
  refine ⟨?_, ?_, ?_⟩
  · intro w c name iv ir v c1 n hmiss h1 htr
    rw [get_package_of_miss hmiss] at h1
    obtain ⟨hc1, hn⟩ := get_package_miss_ok h1
    subst hc1
    have hgfc : get_from_cache ttl t2
        (set_cache now c (pkgKey name iv ir) v) (pkgKey name iv ir)
        = (some v, set_cache now c (pkgKey name iv ir) v) := by
      have hcnd : ¬ (t2 - now > ttl) := by omega
      simp [get_from_cache, set_cache, hcnd]
    simp [get_package, hgfc, htr]
  · intro w c username size fromOff v c1 n hmiss h1 htr
    rw [get_user_packages_of_miss hmiss] at h1
    obtain ⟨hc1, hn⟩ := get_user_packages_miss_ok h1
    subst hc1
    have hgfc : get_from_cache ttl t2
        (set_cache now c (userKey username size fromOff) v)
        (userKey username size fromOff)
        = (some v, set_cache now c (userKey username size fromOff) v) := by
      have hcnd : ¬ (t2 - now > ttl) := by omega
      simp [get_from_cache, set_cache, hcnd]
    simp [get_user_packages, hgfc, htr]
  · intro w c package range_ v c1 n hmiss h1 htr
    rw [package_downloads_chart_of_miss hmiss] at h1
    obtain ⟨hc1, hn⟩ := package_downloads_chart_miss_ok h1
    subst hc1
    have hgfc : get_from_cache ttl t2
        (set_cache now c (chartKey package range_) v) (chartKey package range_)
        = (some v, set_cache now c (chartKey package range_) v) := by
      have hcnd : ¬ (t2 - now > ttl) := by omega
      simp [get_from_cache, set_cache, hcnd]
    simp [package_downloads_chart, hgfc, htr]

/-- Witness for the amended C3: a user-packages request repeated 30 seconds
later (TTL 60) returns the identical output, leaves the cache unchanged,
and issues zero upstream fetches. -/
theorem c3_witness :
    get_user_packages 60 30 (FetchOutcome.success 200 ⟨some [], some 3⟩)
        (set_cache 0 emptyCache (userKey "alice" 10 0) (.user ⟨"alice", 3, []⟩))
        "alice" 10 0
      = (.ok (.user ⟨"alice", 3, []⟩),
         set_cache 0 emptyCache (userKey "alice" 10 0) (.user ⟨"alice", 3, []⟩),
         0) :=
  (c3_amended_idempotent_within_ttl 60 0 30 (by decide)).2.1
    (FetchOutcome.success 200 ⟨some [], some 3⟩)
    emptyCache "alice" 10 0
    (.user ⟨"alice", 3, []⟩)
    (set_cache 0 emptyCache (userKey "alice" 10 0) (.user ⟨"alice", 3, []⟩))
    1 rfl rfl rfl
